import Mathlib

/-!
Shallow embedding of the ESP8266 simulator core (gpioManager.js, parser.js,
eventBus.js and the SimulatorEngine of useSimulatorStore.js) and proofs of
the behavioural claims about it.

JS numbers are modelled as `Int` where the source only ever holds integers
and as `Rat` where a fractional value can flow in (analog duty cycles,
brightness); `Math.round x` is `Int.floor (x + 1/2)`, which agrees with JS
on every finite input the simulator handles. Thrown `Error`s are modelled
with `Except`, and each `eventBus.emit` call site is mirrored by a
structured `Ev` value in the order the source emits.
-/

namespace ESP8266

/-! ## gpioManager.js — constants and data model -/

/-- Source of `PIN_MODE` (gpioManager.js): the three accepted mode strings. -/
def PIN_MODE_VALUES : List String := ["INPUT", "OUTPUT", "INPUT_PULLUP"]

/-- Source of `ESP8266_PIN_MAP` (gpioManager.js): NodeMCU alias → GPIO. -/
def ESP8266_PIN_MAP : List (String × Int) :=
  [("D0", 16), ("D1", 5), ("D2", 4), ("D3", 0), ("D4", 2),
   ("D5", 14), ("D6", 12), ("D7", 13), ("D8", 15), ("A0", 17)]

/-- Source of `VALID_GPIOS` (gpioManager.js). -/
def VALID_GPIOS : List Int := [0, 1, 2, 3, 4, 5, 12, 13, 14, 15, 16, 17]

/-- A pin argument as the JS API receives it: a number or a string. -/
inductive PinIn where
  | num (n : Int)
  | str (s : String)
deriving DecidableEq

/-- Errors thrown by GPIOManager: `resolvePin`'s unknown-pin throw,
`_validateGpio`'s invalid-GPIO throw (carrying the raw argument, which for
`setExternalValue` may be a string), and `pinMode`'s invalid-mode throw. -/
inductive GpioError where
  | unknownPin (s : String)
  | invalidGpio (p : PinIn)
  | invalidMode (m : String)
deriving DecidableEq

/-- The spec's `InvalidPinError` covers the two pin-identity failures. -/
def isInvalidPinError : GpioError → Bool
  | .unknownPin _ => true
  | .invalidGpio _ => true
  | .invalidMode _ => false

/-- Per-pin state exactly as `_initializePins` lays it out:
mode (null or a normalized mode string), digital value, pwm duty, pwm flag
and the optional D#/A0 alias. -/
structure PinState where
  mode : Option String
  value : Int
  pwmValue : Int
  isPWM : Bool
  aliasName : Option String
deriving DecidableEq

/-- The pin table. The JS `Map` only holds valid GPIOs; since every public
operation validates the id before touching the table, a total function is a
faithful model. -/
def GpioState := Int → PinState

/-- `_getAlias`: first map entry whose GPIO matches. -/
def getAlias (gpio : Int) : Option String :=
  (ESP8266_PIN_MAP.find? (fun p => p.2 = gpio)).map (fun p => p.1)

/-- `_initializePins`: defaults for every pin. -/
def initPins : GpioState := fun g =>
  { mode := none, value := 0, pwmValue := 0, isPWM := false, aliasName := getAlias g }

/-- Point update of the pin table (`this._pins.get(gpio)` then mutation). -/
def setPin (st : GpioState) (g : Int) (ps : PinState) : GpioState :=
  fun x => if x = g then ps else st x

/-! ## JS primitives used by gpioManager.js -/

/-- JS whitespace (the ASCII part, all the sources use). -/
def isWSChar (c : Char) : Bool :=
  c = ' ' ∨ c = '\t' ∨ c = '\n' ∨ c = '\r' ∨ c = '\x0b' ∨ c = '\x0c'

/-- ASCII upper-casing, what `toUpperCase` does on the inputs in scope. -/
def toUpperStr (s : String) : String := String.mk (s.toList.map Char.toUpper)

/-- Digit run → number (used under `parseInt` and the validator's `\d+`). -/
def digitsToNat (ds : List Char) : Int :=
  ds.foldl (fun acc c => acc * 10 + ((c.toNat : Int) - ('0'.toNat : Int))) 0

/-- `parseInt(s, 10)`: skip leading whitespace, optional sign, then the
leading digit run; `none` models `NaN` (no digits). Trailing text is
ignored, as in JS. -/
def parseIntJS (s : String) : Option Int :=
  let t := s.toList.dropWhile isWSChar
  let signed : Int × List Char :=
    match t with
    | '-' :: r => (-1, r)
    | '+' :: r => (1, r)
    | _ => (1, t)
  let ds := signed.2.takeWhile Char.isDigit
  if ds = [] then none else some (signed.1 * digitsToNat ds)

/-- `Math.round` on the rationals the simulator can see. -/
def jsRound (q : Rat) : Int := Int.floor (q + 1 / 2)

/-- `Math.max(0, Math.min(1023, Math.round(value)))` from `analogWrite`. -/
def clamp1023 (v : Rat) : Int := max 0 (min 1023 (jsRound v))

/-! ## gpioManager.js — pin resolution and validation -/

/-- `resolvePin`: LED_BUILTIN, then the alias map on the upper-cased name,
then `parseInt`; numbers pass through untouched. -/
def resolvePin : PinIn → Except GpioError Int
  | .num n => .ok n
  | .str s =>
    let upper := toUpperStr s
    if upper = "LED_BUILTIN" then .ok 2
    else
      match (ESP8266_PIN_MAP.find? (fun p => p.1 = upper)).map (fun p => p.2) with
      | some g => .ok g
      | none =>
        match parseIntJS s with
        | some n => .ok n
        | none => .error (.unknownPin s)

/-- `_validateGpio` applied to a raw argument: a number must be a member of
`VALID_GPIOS`; a string never is (`VALID_GPIOS.includes("…")` is false). -/
def validateGpioRaw : PinIn → Except GpioError Int
  | .num n => if n ∈ VALID_GPIOS then .ok n else .error (.invalidGpio (.num n))
  | .str s => .error (.invalidGpio (.str s))

/-- The `resolvePin` + `_validateGpio` prelude shared by pinMode,
digitalWrite, digitalRead and analogWrite. -/
def resolveValid (pin : PinIn) : Except GpioError Int :=
  match resolvePin pin with
  | .error e => .error e
  | .ok g => validateGpioRaw (.num g)

/-! ## gpioManager.js — events

One constructor per `eventBus.emit` call site of the pin operations, with
the payload fields the claims inspect. -/

inductive Ev where
  | warnNoOutputDW (g : Int)
  | warnNoModeDR (g : Int)
  | warnOutOfRange (g : Int) (v : Rat)
  | warnNoOutputAW (g : Int)
  | warnSoftPWM (g : Int)
  | pwmChange (g : Int) (aliasName : Option String) (value : Int) (brightness : Rat)
  | pinChange (g : Int) (aliasName : Option String) (mode : Option String) (value : Int)
      (pwmValue : Option Int) (brightness : Option Rat)
  | notifyComponents (g : Int) (value : Int) (analogValue : Int)
  | gpioReset
deriving DecidableEq

/-! ## gpioManager.js — the public pin operations

Each operation is split into its state transition (`…State`) and its emitted
events (`…Events`); the `Except` wrapper performs the source's validation
first, so a throw leaves the table untouched, exactly as in JS where every
throw happens before the first mutation. -/

/-- `pinMode` state change: set the normalized mode; INPUT_PULLUP also
initializes the value to HIGH. -/
def pinModeState (st : GpioState) (g : Int) (m : String) : GpioState :=
  let ps := st g
  setPin st g
    { ps with mode := some m, value := if m = "INPUT_PULLUP" then 1 else ps.value }

/-- `pinMode` events: one pin-change. -/
def pinModeEvents (st : GpioState) (g : Int) (m : String) : List Ev :=
  let ps := pinModeState st g m g
  [.pinChange g ps.aliasName (some m) ps.value none none]

/-- `pinMode(pin, mode)`. -/
def pinMode (st : GpioState) (pin : PinIn) (mode : String) :
    Except GpioError (GpioState × List Ev) :=
  match resolveValid pin with
  | .error e => .error e
  | .ok g =>
    let m := toUpperStr mode
    if m ∈ PIN_MODE_VALUES then
      .ok (pinModeState st g m, pinModeEvents st g m)
    else .error (.invalidMode mode)

/-- `digitalWrite` state change: normalize the value by JS truthiness, clear
the PWM flag and snap the duty to 0/1023. -/
def digitalWriteState (st : GpioState) (g : Int) (v : Int) : GpioState :=
  let ps := st g
  let nv : Int := if v = 0 then 0 else 1
  setPin st g
    { ps with value := nv, isPWM := false, pwmValue := if nv = 1 then 1023 else 0 }

/-- `digitalWrite` events: optional no-OUTPUT warning, pwm-change,
pin-change, component notification — in source order. -/
def digitalWriteEvents (st : GpioState) (g : Int) (v : Int) : List Ev :=
  let ps := st g
  let nv : Int := if v = 0 then 0 else 1
  let npwm : Int := if nv = 1 then 1023 else 0
  let brightness : Rat := if nv = 1 then 1 else 0
  (if ps.mode ≠ some "OUTPUT" then [Ev.warnNoOutputDW g] else []) ++
    [.pwmChange g ps.aliasName npwm brightness,
     .pinChange g ps.aliasName ps.mode nv (some npwm) (some brightness),
     .notifyComponents g nv npwm]

/-- `digitalWrite(pin, value)`. -/
def digitalWrite (st : GpioState) (pin : PinIn) (v : Int) :
    Except GpioError (GpioState × List Ev) :=
  match resolveValid pin with
  | .error e => .error e
  | .ok g => .ok (digitalWriteState st g v, digitalWriteEvents st g v)

/-- `digitalRead(pin)`: warns when the mode is unset but always returns the
stored value. -/
def digitalRead (st : GpioState) (pin : PinIn) :
    Except GpioError (Int × List Ev) :=
  match resolveValid pin with
  | .error e => .error e
  | .ok g =>
    let ps := st g
    .ok (ps.value, if ps.mode = none then [Ev.warnNoModeDR g] else [])

/-- `analogWrite` state change: set the PWM flag, store the clamped duty and
derive the digital value from it. -/
def analogWriteState (st : GpioState) (g : Int) (v : Rat) : GpioState :=
  let ps := st g
  let clamped := clamp1023 v
  setPin st g
    { ps with
      isPWM := true
      pwmValue := clamped
      value := if clamped > 0 then 1 else 0 }

/-- `analogWrite` events in source order: out-of-range warning, mode
warning, GPIO16 software-PWM warning, pwm-change, pin-change, component
notification. -/
def analogWriteEvents (st : GpioState) (g : Int) (v : Rat) : List Ev :=
  let ps := st g
  let clamped := clamp1023 v
  let nv : Int := if clamped > 0 then 1 else 0
  let brightness : Rat := clamped / 1023
  (if v < 0 ∨ v > 1023 then [Ev.warnOutOfRange g v] else []) ++
    (if ps.mode ≠ some "OUTPUT" ∧ ps.mode ≠ none then [Ev.warnNoOutputAW g] else []) ++
    (if g = 16 then [Ev.warnSoftPWM g] else []) ++
    [.pwmChange g ps.aliasName clamped brightness,
     .pinChange g ps.aliasName ps.mode nv (some clamped) (some brightness),
     .notifyComponents g nv clamped]

/-- `analogWrite(pin, value)`. -/
def analogWrite (st : GpioState) (pin : PinIn) (v : Rat) :
    Except GpioError (GpioState × List Ev) :=
  match resolveValid pin with
  | .error e => .error e
  | .ok g => .ok (analogWriteState st g v, analogWriteEvents st g v)

/-- `setExternalValue(gpio, value)`: validates its argument directly with
`_validateGpio` — it never calls `resolvePin` — then sets the normalized
digital value and emits one pin-change. -/
def setExternalValue (st : GpioState) (pin : PinIn) (v : Int) :
    Except GpioError (GpioState × List Ev) :=
  match validateGpioRaw pin with
  | .error e => .error e
  | .ok g =>
    let ps := st g
    let nv : Int := if v = 0 then 0 else 1
    .ok (setPin st g { ps with value := nv },
      [.pinChange g ps.aliasName ps.mode nv none none])

/-- `reset()`: re-initialize every pin; components survive. -/
def resetGpio (_ : GpioState) : GpioState × List Ev := (initPins, [.gpioReset])

/-- `analogWrite` then `digitalRead` on the same pin identifier (the
round-trip of §8's first property). -/
def awThenDR (st : GpioState) (pin : PinIn) (d : Rat) : Except GpioError Int :=
  match analogWrite st pin d with
  | .error e => .error e
  | .ok r =>
    match digitalRead r.1 pin with
    | .error e => .error e
    | .ok q => .ok q.1

/-! ## eventBus.js — delivery semantics of `emit`

`emit` iterates the topic's live `Set` with `forEach` while `off` deletes
from that same set, so (per the JS `Set.prototype.forEach` contract) an
element deleted before being visited is skipped and each element is visited
at most once, in insertion order. `dispatchLive effect removed pending`
returns the handlers invoked, where `pending` is the insertion-ordered
subscriber set at publish time, `removed` the handlers already
unsubscribed, and `effect h` the handlers that invoking `h` unsubscribes
(the only re-entrant mutation the claim concerns). -/

def dispatchLive (effect : Nat → List Nat) : List Nat → List Nat → List Nat
  | _, [] => []
  | removed, h :: rest =>
    if h ∈ removed then dispatchLive effect removed rest
    else h :: dispatchLive effect (removed ++ effect h) rest

/-- Occurrence count, for "invoked exactly once". -/
def countHits (a : Nat) : List Nat → Nat
  | [] => 0
  | b :: l => (if b = a then 1 else 0) + countHits a l

/-! ## parser.js — character-level helpers for the regex scans -/

/-- JS `\w`. -/
def isWordChar (c : Char) : Bool := c.isAlphanum || c = '_'

def dropWSL (s : List Char) : List Char := s.dropWhile isWSChar

/-- Match a literal character sequence, returning the rest. -/
def matchLit : List Char → List Char → Option (List Char)
  | [], s => some s
  | _ :: _, [] => none
  | k :: ks, c :: cs => if k = c then matchLit ks cs else none

def startsWithL (pre s : List Char) : Bool := (matchLit pre s).isSome

/-- JS `String.trim` (ASCII whitespace suffices for the sources). -/
def trimWS (s : List Char) : List Char :=
  ((s.dropWhile isWSChar).reverse.dropWhile isWSChar).reverse

/-- Greedy `\w+` capture. -/
def capWord (s : List Char) : Option (List Char × List Char) :=
  let w := s.takeWhile isWordChar
  if w = [] then none else some (w, s.drop w.length)

/-- Greedy `\d+` capture. -/
def capDigits (s : List Char) : Option (List Char × List Char) :=
  let w := s.takeWhile Char.isDigit
  if w = [] then none else some (w, s.drop w.length)

/-- `/void\s+NAME\s*\(\s*\)/` tested at one position. -/
def voidFnAt (name : String) (s : List Char) : Bool :=
  match matchLit "void".toList s with
  | none => false
  | some r =>
    match r with
    | [] => false
    | c :: r2 =>
      if isWSChar c then
        match matchLit name.toList (dropWSL r2) with
        | none => false
        | some r3 =>
          match dropWSL r3 with
          | '(' :: r4 => (match dropWSL r4 with | ')' :: _ => true | _ => false)
          | _ => false
      else false

/-- `.test` of the entry-point regex: a match at any position. -/
def hasVoidFn (name : String) (code : String) : Bool :=
  (code.toList.tails).any (voidFnAt name)

def hasSetupFn (code : String) : Bool := hasVoidFn "setup" code

def hasLoopFn (code : String) : Bool := hasVoidFn "loop" code

/-- `/NAME\s*\(\s*(\w+)\s*,/` tried at one position: capture and rest. -/
def callWordCommaAt (fname : String) (s : List Char) : Option (String × List Char) :=
  match matchLit fname.toList s with
  | none => none
  | some r =>
    match dropWSL r with
    | '(' :: r2 =>
      match capWord (dropWSL r2) with
      | some (w, r3) =>
        (match dropWSL r3 with
         | ',' :: r4 => some (String.mk w, r4)
         | _ => none)
      | none => none
    | _ => none

/-- `/NAME\s*\(\s*(\d+)\s*[,)]/` tried at one position. -/
def callDigitsAt (fname : String) (s : List Char) : Option (String × List Char) :=
  match matchLit fname.toList s with
  | none => none
  | some r =>
    match dropWSL r with
    | '(' :: r2 =>
      match capDigits (dropWSL r2) with
      | some (w, r3) =>
        (match dropWSL r3 with
         | ',' :: r4 => some (String.mk w, r4)
         | ')' :: r4 => some (String.mk w, r4)
         | _ => none)
      | none => none
    | _ => none

/-- The validator's pin-number pattern: alternation in source order. -/
def pinNumAt (s : List Char) : Option (String × List Char) :=
  match callDigitsAt "pinMode" s with
  | some r => some r
  | none =>
    match callDigitsAt "digitalWrite" s with
    | some r => some r
    | none => callDigitsAt "digitalRead" s

/-- `/delay\s*\(\s*(-\d+)\s*\)/` tried at one position. -/
def negDelayAt (s : List Char) : Bool :=
  match matchLit "delay".toList s with
  | none => false
  | some r =>
    match dropWSL r with
    | '(' :: r2 =>
      (match dropWSL r2 with
       | '-' :: r3 =>
         (match capDigits r3 with
          | some (_, r4) => (match dropWSL r4 with | ')' :: _ => true | _ => false)
          | none => false)
       | _ => false)
    | _ => false

/-- A `g`-flagged `exec` loop: collect every capture, resuming after each
match (fuelled by the input length; every step consumes at least one
character). -/
def scanAll (f : List Char → Option (String × List Char)) :
    Nat → List Char → List String
  | 0, _ => []
  | _ + 1, [] => []
  | fuel + 1, c :: rest =>
    match f (c :: rest) with
    | some (cap, r) => cap :: scanAll f fuel r
    | none => scanAll f fuel rest

/-- Plain `.match`: the first capture, scanning left to right. -/
def firstCapture (f : List Char → Option (String × List Char)) :
    List Char → Option String
  | [] => none
  | c :: rest =>
    match f (c :: rest) with
    | some (cap, _) => some cap
    | none => firstCapture f rest

/-- First position where a boolean pattern matches. -/
def anyAt (f : List Char → Bool) : List Char → Bool
  | [] => false
  | c :: rest => f (c :: rest) || anyAt f rest

/-- `code.split("\n")`. -/
def splitLines : List Char → List (List Char)
  | [] => [[]]
  | c :: rest =>
    match splitLines rest with
    | [] => [[c]]
    | l :: ls => if c = '\n' then [] :: l :: ls else (c :: l) :: ls

/-! ## parser.js — static validation (`validateCode`) -/

/-- A diagnostic's message, one constructor per `push` site. -/
inductive DiagMsg where
  | missingSetup
  | missingLoop
  | dwWithoutPinMode (pin : String)
  | invalidGpioLit (g : Int)
  | negativeDelay
  | compileError (m : String)
deriving DecidableEq

inductive Severity where
  | error
  | warning
deriving DecidableEq

structure Diag where
  line : Nat
  msg : DiagMsg
  severity : Severity
deriving DecidableEq

/-- The two entry-point errors, pushed before the per-line scan. -/
def entryDiags (code : String) : List Diag :=
  (if hasSetupFn code then [] else [⟨1, .missingSetup, .error⟩]) ++
    (if hasLoopFn code then [] else [⟨1, .missingLoop, .error⟩])

/-- The pins collected by the global `pinMode` capture pass. -/
def configuredPins (code : String) : List String :=
  scanAll (callWordCommaAt "pinMode") code.toList.length code.toList

/-- One line of the validator's scan: comment lines are skipped; then the
digitalWrite-without-pinMode warning, the invalid-GPIO error and the
negative-delay error, in source order. -/
def lineDiag (configured : List String) (lineNum : Nat) (line : List Char) :
    List Diag × List Diag :=
  let t := trimWS line
  if startsWithL "//".toList t || startsWithL "/*".toList t then ([], [])
  else
    let warns :=
      match firstCapture (callWordCommaAt "digitalWrite") t with
      | some pin =>
        if pin ∉ configured ∧ pin ≠ "LED_BUILTIN" then
          [⟨lineNum, .dwWithoutPinMode pin, .warning⟩]
        else []
      | none => []
    let pinErrs :=
      match firstCapture pinNumAt t with
      | some ds =>
        let g := digitsToNat ds.toList
        if g ∈ VALID_GPIOS then [] else [⟨lineNum, .invalidGpioLit g, .error⟩]
      | none => []
    let delayErrs := if anyAt negDelayAt t then [⟨lineNum, .negativeDelay, .error⟩] else []
    (pinErrs ++ delayErrs, warns)

/-- Errors and warnings of the per-line scan, in line order. -/
def lineDiags (code : String) : List Diag × List Diag :=
  let cfg := configuredPins code
  ((splitLines code.toList).enum.map (fun p => lineDiag cfg (p.1 + 1) p.2)).foldr
    (fun p acc => (p.1 ++ acc.1, p.2 ++ acc.2)) ([], [])

structure VRes where
  errors : List Diag
  warnings : List Diag
deriving DecidableEq

/-- `validateCode(code)`. -/
def validateCode (code : String) : VRes :=
  ⟨entryDiags code ++ (lineDiags code).1, (lineDiags code).2⟩

/-! ## parser.js — dialect-constant substitution (step 10 of
`parseArduinoCode`)

`ARDUINO_CONSTANTS` in `Object.entries` order, and the blanket
`new RegExp("\\b" + key + "\\b", "g")` replacement the step performs over
the whole text — string literals and comments included. -/

def ARDUINO_CONSTANTS : List (String × String) :=
  [("HIGH", "1"), ("LOW", "0"), ("OUTPUT", "\"OUTPUT\""), ("INPUT", "\"INPUT\""),
   ("INPUT_PULLUP", "\"INPUT_PULLUP\""), ("LED_BUILTIN", "2"),
   ("true", "true"), ("false", "false"),
   ("D0", "16"), ("D1", "5"), ("D2", "4"), ("D3", "0"), ("D4", "2"),
   ("D5", "14"), ("D6", "12"), ("D7", "13"), ("D8", "15"), ("A0", "17")]

/-- Does `\bKEY\b` match here?  `prev` is the character before this
position (`none` at the start); every key is made of word characters, so
the boundaries are: non-word (or edge) before and after. -/
def wordAt (prev : Option Char) (key rest : List Char) : Bool :=
  (match prev with | none => true | some c => !isWordChar c) &&
    startsWithL key rest &&
    (match rest.drop key.length with | [] => true | c :: _ => !isWordChar c)

/-- The scan of `String.replace` with a `g`-flagged `\bKEY\b` pattern:
left-to-right, resuming after each match; the boundary before the next
position is judged on the original text (the key's last character). -/
def replaceWordGo (key repl : List Char) : Nat → Option Char → List Char → List Char
  | 0, _, s => s
  | _ + 1, _, [] => []
  | fuel + 1, prev, c :: rest =>
    if wordAt prev key (c :: rest) then
      repl ++ replaceWordGo key repl fuel key.getLast? ((c :: rest).drop key.length)
    else c :: replaceWordGo key repl fuel (some c) rest

def replaceWord (key repl : String) (s : String) : String :=
  String.mk (replaceWordGo key.toList repl.toList s.toList.length none s.toList)

/-- Step 10 of `parseArduinoCode`: fold the whole-word replacement over
every dialect constant, in table order. -/
def substituteConstants (code : String) : String :=
  ARDUINO_CONSTANTS.foldl (fun acc kv => replaceWord kv.1 kv.2 acc) code

/-! ## SimulatorEngine (useSimulatorStore.js, second module)

The engine's own fields; the GPIO table lives in the singleton modelled
above. `Compiled` stands for the `{setup, loop}` pair `compileFunctions`
returns — the claims only need its identity, not its behaviour. -/

inductive EngineSt where
  | idle
  | running
  | stopped
  | error
deriving DecidableEq

structure Compiled where
  jsCode : String
deriving DecidableEq

structure Engine where
  state : EngineSt
  running : Bool
  loopTimeoutPending : Bool
  compiled : Option Compiled
  sourceCode : String
  loopCount : Nat
deriving DecidableEq

/-- The constructor's initial state. -/
def engineInit : Engine :=
  { state := .idle, running := false, loopTimeoutPending := false,
    compiled := none, sourceCode := "", loopCount := 0 }

structure LoadResult where
  success : Bool
  errors : List Diag
  warnings : List Diag
deriving DecidableEq

/-- Serial-log / engine-state emissions of the engine, one constructor per
emit site the claims inspect. -/
inductive EngEv where
  | serialErrDiag (d : Diag)
  | serialWarnDiag (d : Diag)
  | serialErrMsg (m : String)
  | serialInfoCompiled
  | engineStateEv (s : EngineSt)
deriving DecidableEq

/-- `load(code)`.  `compileRes` stands for the outcome of steps 2–3
(`parseArduinoCode` + `compileFunctions`, host-language evaluation we
cannot embed): `.ok` a compiled pair, `.error` the thrown message.  The
control flow is the source's: store the source; on validation errors log
them and return failure; otherwise log warnings, then on compile success
store the program and log, and on compile failure log the error, set the
ERROR state and return failure with a line-0 diagnostic. -/
def load (e : Engine) (code : String) (compileRes : Except String Compiled) :
    LoadResult × Engine × List EngEv :=
  let e1 : Engine := { e with sourceCode := code }
  let v := validateCode code
  if v.errors.isEmpty then
    let warnEvs := v.warnings.map EngEv.serialWarnDiag
    match compileRes with
    | .ok c =>
      (⟨true, v.errors, v.warnings⟩, { e1 with compiled := some c },
        warnEvs ++ [.serialInfoCompiled])
    | .error msg =>
      (⟨false, [⟨0, .compileError msg, .error⟩], v.warnings⟩,
        { e1 with state := .error },
        warnEvs ++ [.serialErrMsg msg, .engineStateEv .error])
  else
    (⟨false, v.errors, v.warnings⟩, e1, v.errors.map EngEv.serialErrDiag)

/-- `start()`'s guard: with no compiled program it only logs an error. -/
def canStart (e : Engine) : Bool := e.compiled.isSome

/-- `stop()`: clear the running flag, clear any pending loop timer, move to
STOPPED (it also logs; safe from any state, idempotent). -/
def stopEngine (e : Engine) : Engine :=
  { e with running := false, loopTimeoutPending := false, state := .stopped }

/-! ## SimulatorEngine — the cooperative delay and the loop cycle

`_delay(ms)` clamps the wait to 2000 ms and serves it in 50 ms chunks; at
every chunk boundary the `tick` callback first reads `this._running` and
rejects with the `__STOP__` signal when it is false.  `running i` is the
flag's value when the i-th tick callback fires; on abort the result carries
that index, pinning the abort to a quantum boundary. -/

def chunkSize : Nat := 50

def maxRealDelay : Nat := 2000

def realDelay (ms : Nat) : Nat := min ms maxRealDelay

/-- Number of tick callbacks a full (un-stopped) delay runs. -/
def delayTicks (ms : Nat) : Nat := (realDelay ms + chunkSize - 1) / chunkSize

/-- The chunked `tick` loop: `n` ticks remain; each first checks the flag. -/
def tickLoop (running : Nat → Bool) : Nat → Nat → Except Nat Unit
  | _, 0 => .ok ()
  | i, n + 1 => if running i then tickLoop running (i + 1) n else .error i

/-- `_delay(ms)` resolved (`.ok`) or rejected at tick `i` (`.error i`).
A wait within one chunk is a single timeout that still checks the flag. -/
def delayRun (running : Nat → Bool) (ms : Nat) : Except Nat Unit :=
  if realDelay ms ≤ chunkSize then
    (if running 0 then .ok () else .error 0)
  else tickLoop running 0 (delayTicks ms)

/-- The `__STOP__` marker and a runtime fault, the two ways a loop body's
promise can reject. -/
inductive Signal where
  | stopSignal
  | runtime (msg : String)
deriving DecidableEq

/-- One `loop()` invocation that is awaiting `__delay(ms)`: if the delay
rejects, the `await` re-throws and the rest of the body (`rest`) never
runs; otherwise the body continues as `rest`. -/
def loopIterWithDelay (running : Nat → Bool) (ms : Nat)
    (rest : Except Signal Unit) : Except Signal Unit :=
  match delayRun running ms with
  | .error _ => .error .stopSignal
  | .ok _ => rest

/-- `_handleError`: drop the flag and move to ERROR. -/
def handleError (e : Engine) : Engine :=
  { e with running := false, state := .error }

/-- `_runLoop`'s re-arm: only schedules the next timer while running. -/
def scheduleNext (e : Engine) : Engine :=
  if e.running then { e with loopTimeoutPending := true } else e

/-- The catch/continue logic around one awaited `loop()` invocation in
`_runLoop`: on success count the iteration and re-arm; on `__STOP__`
return silently; on any other error `_handleError`. -/
def handleLoopOutcome (e : Engine) : Except Signal Unit → Engine
  | .ok _ => scheduleNext { e with loopCount := e.loopCount + 1 }
  | .error .stopSignal => e
  | .error (.runtime _) => handleError e

/-! ## Derived definitions used by the claims -/

/-- Did the call return normally (no throw)? -/
def exceptOk {α β : Type} (x : Except α β) : Bool :=
  match x with
  | .ok _ => true
  | .error _ => false

/-- Is an event the out-of-range analogWrite warning? -/
def isOORWarn : Ev → Bool
  | .warnOutOfRange _ _ => true
  | _ => false

/-- Number of out-of-range warnings among emitted events. -/
def countOOR (evs : List Ev) : Nat := (evs.filter isOORWarn).length

/-- The public operations claim C10 ranges over. -/
inductive GpioOp where
  | pinModeOp (p : PinIn) (m : String)
  | digitalWriteOp (p : PinIn) (v : Int)
  | analogWriteOp (p : PinIn) (d : Rat)
  | setExternalValueOp (p : PinIn) (v : Int)
  | resetOp

/-- Run one public operation; a throw leaves the table unchanged (every
throw in the source happens before its first mutation). -/
def applyOp (st : GpioState) : GpioOp → GpioState
  | .pinModeOp p m => match pinMode st p m with | .ok r => r.1 | .error _ => st
  | .digitalWriteOp p v => match digitalWrite st p v with | .ok r => r.1 | .error _ => st
  | .analogWriteOp p d => match analogWrite st p d with | .ok r => r.1 | .error _ => st
  | .setExternalValueOp p v =>
    match setExternalValue st p v with | .ok r => r.1 | .error _ => st
  | .resetOp => (resetGpio st).1

/-- C10's invariant for one pin: integral duty within 0..1023 (integrality
is the `Int` type itself — `analogWrite` stores `Math.round`ed input) and a
0/1 digital value. -/
def PinInv (ps : PinState) : Prop :=
  0 ≤ ps.pwmValue ∧ ps.pwmValue ≤ 1023 ∧ (ps.value = 0 ∨ ps.value = 1)

/-- C10's invariant over the whole table. -/
def GpioInv (st : GpioState) : Prop := ∀ g, PinInv (st g)

/-- Engines used as concrete instances in witnesses. -/
def blinkOkCode : String := "void setup() \x7b \x7d\nvoid loop() \x7b \x7d"

def noLoopCode : String := "void setup() \x7b \x7d"

def engineWithOld : Engine := { engineInit with compiled := some ⟨"old program"⟩ }

def engineRunningEx : Engine :=
  { state := .running, running := true, loopTimeoutPending := false,
    compiled := some ⟨"js"⟩, sourceCode := "", loopCount := 3 }

/-! # Lemmas -/

theorem setPin_same (st : GpioState) (g : Int) (ps : PinState) :
    setPin st g ps g = ps := by
  simp [setPin]

/-- `Math.round` of an integer is itself. -/
theorem jsRound_intCast (d : Int) : jsRound (d : Rat) = d := by
  unfold jsRound
  rw [Int.floor_int_add]
  norm_num

theorem clamp1023_intCast (d : Int) (h0 : 0 ≤ d) (h1 : d ≤ 1023) :
    clamp1023 (d : Rat) = d := by
  unfold clamp1023
  rw [jsRound_intCast, min_eq_right h1, max_eq_right h0]

theorem clamp1023_nonneg (v : Rat) : 0 ≤ clamp1023 v := le_max_left _ _

theorem clamp1023_le (v : Rat) : clamp1023 v ≤ 1023 :=
  max_le (by norm_num) (min_le_left _ _)

theorem clamp1023_of_neg (v : Rat) (h : v < 0) : clamp1023 v = 0 := by
  have hr : jsRound v ≤ 0 := by
    have : (jsRound v : Rat) ≤ v + 1 / 2 := Int.floor_le _
    have hv : v + 1 / 2 < 1 := by linarith
    have : (jsRound v : Rat) < 1 := lt_of_le_of_lt this hv
    exact_mod_cast Int.lt_add_one_iff.mp (by exact_mod_cast this)
  unfold clamp1023
  rw [min_eq_right (le_trans hr (by norm_num)), max_eq_left hr]

theorem clamp1023_of_big (v : Rat) (h : 1023 < v) : clamp1023 v = 1023 := by
  have hr : 1023 ≤ jsRound v := by
    rw [jsRound, Int.le_floor]
    push_cast
    linarith
  unfold clamp1023
  rw [min_eq_left hr, max_eq_right (by norm_num)]

/-! # Claim theorems -/

/-- C1: for every pin identifier resolving to a valid GPIO and every duty
`d ∈ [0,1023]` (an integer, as PWM duties are), `analogWrite(p, d)`
followed by `digitalRead(p)` returns HIGH exactly when `d > 0`: the stored
digital value after an analog write is derived from the positivity of the
clamped duty. -/
theorem writeAnalog_then_readDigital_high_iff (st : GpioState) (p : PinIn)
    (g d : Int) (hg : resolveValid p = .ok g) (h0 : 0 ≤ d) (h1 : d ≤ 1023) :
    awThenDR st p (d : Rat) = .ok (if 0 < d then 1 else 0) := by
  simp only [awThenDR, analogWrite, digitalRead, hg]
  simp [analogWriteState, setPin_same, clamp1023_intCast d h0 h1]

theorem writeAnalog_then_readDigital_high_iff_w :
    awThenDR initPins (PinIn.num 4) (512 : Rat) = .ok 1 ∧
    awThenDR initPins (PinIn.num 4) (0 : Rat) = .ok 0 := by
  have h1 := writeAnalog_then_readDigital_high_iff initPins (PinIn.num 4) 4 512
    rfl (by decide) (by decide)
  have h2 := writeAnalog_then_readDigital_high_iff initPins (PinIn.num 4) 4 0
    rfl (by decide) (by decide)
  constructor
  · simpa using h1
  · simpa using h2

/-- C6: for every pin identifier resolving to a valid GPIO, `digitalWrite`
clears `isPWM` and snaps the duty to 1023 for a HIGH (truthy) value and 0
for a LOW value, so the stored duty always agrees with the stored digital
value after a digital write. -/
theorem digitalWrite_snaps_duty (st : GpioState) (p : PinIn) (g v : Int)
    (hg : resolveValid p = .ok g) :
    (digitalWrite st p v).map
        (fun r => ((r.1 g).isPWM, (r.1 g).pwmValue, (r.1 g).value)) =
      .ok (false, (if v = 0 then 0 else 1023), (if v = 0 then 0 else 1)) := by
  simp only [digitalWrite, hg, Except.map, digitalWriteState, setPin_same]
  by_cases hv : v = 0 <;> simp [hv]

theorem digitalWrite_snaps_duty_w :
    (digitalWrite initPins (PinIn.str "D4") 1).map
        (fun r => ((r.1 2).isPWM, (r.1 2).pwmValue, (r.1 2).value)) =
      .ok (false, 1023, 1) ∧
    (digitalWrite initPins (PinIn.str "D4") 0).map
        (fun r => ((r.1 2).isPWM, (r.1 2).pwmValue, (r.1 2).value)) =
      .ok (false, 0, 0) := by
  have h1 := digitalWrite_snaps_duty initPins (PinIn.str "D4") 2 1 rfl
  have h0 := digitalWrite_snaps_duty initPins (PinIn.str "D4") 2 0 rfl
  constructor
  · simpa using h1
  · simpa using h0

/-- C9: for every pin identifier resolving to a valid GPIO, `analogWrite`
stores the clamped duty — 0 for negative input, 1023 for input above 1023 —
and emits exactly one out-of-range warning when the input was out of
[0,1023] and none when it was inside. -/
theorem writeAnalog_clamps_and_warns_once (st : GpioState) (p : PinIn)
    (g : Int) (d : Rat) (hg : resolveValid p = .ok g) :
    (analogWrite st p d).map (fun r => ((r.1 g).pwmValue, countOOR r.2)) =
      .ok (clamp1023 d, if d < 0 ∨ 1023 < d then 1 else 0) ∧
    (d < 0 → clamp1023 d = 0) ∧ (1023 < d → clamp1023 d = 1023) := by
  refine ⟨?_, fun h => clamp1023_of_neg d h, fun h => clamp1023_of_big d h⟩
  simp only [analogWrite, hg, Except.map, analogWriteState, analogWriteEvents,
    setPin_same, countOOR, List.filter_append]
  split_ifs with hrange hmode h16 hmode h16 <;>
    simp [isOORWarn, List.filter, List.length]

theorem writeAnalog_clamps_and_warns_once_w :
    (analogWrite initPins (PinIn.num 4) (-5)).map
        (fun r => ((r.1 4).pwmValue, countOOR r.2)) = .ok (0, 1) ∧
    (analogWrite initPins (PinIn.num 4) 2000).map
        (fun r => ((r.1 4).pwmValue, countOOR r.2)) = .ok (1023, 1) ∧
    (analogWrite initPins (PinIn.num 4) 512).map
        (fun r => ((r.1 4).pwmValue, countOOR r.2)) = .ok (512, 0) := by
  have hneg := writeAnalog_clamps_and_warns_once initPins (PinIn.num 4) 4 (-5) rfl
  have hbig := writeAnalog_clamps_and_warns_once initPins (PinIn.num 4) 4 2000 rfl
  have hin := writeAnalog_clamps_and_warns_once initPins (PinIn.num 4) 4 512 rfl
  refine ⟨?_, ?_, ?_⟩
  · rw [hneg.1, hneg.2.1 (by norm_num)]
    norm_num
  · rw [hbig.1, hbig.2.2 (by norm_num)]
    norm_num
  · rw [hin.1]
    norm_num [clamp1023, jsRound]

theorem gpioInv_setPin {st : GpioState} {g : Int} {ps : PinState}
    (h : GpioInv st) (hp : PinInv ps) : GpioInv (setPin st g ps) := by
  intro x
  unfold setPin
  by_cases hx : x = g
  · simpa [hx] using hp
  · simpa [hx] using h x

theorem gpioInv_init : GpioInv initPins := by
  intro g
  unfold initPins PinInv
  norm_num

theorem pinInv_digitalWriteState {st : GpioState} (h : GpioInv st)
    (g v : Int) : GpioInv (digitalWriteState st g v) := by
  unfold digitalWriteState
  refine gpioInv_setPin h ?_
  unfold PinInv
  by_cases hv : v = 0 <;> simp [hv]

theorem pinInv_analogWriteState {st : GpioState} (h : GpioInv st)
    (g : Int) (d : Rat) : GpioInv (analogWriteState st g d) := by
  unfold analogWriteState
  refine gpioInv_setPin h ?_
  refine ⟨clamp1023_nonneg d, clamp1023_le d, ?_⟩
  by_cases hc : clamp1023 d > 0 <;> simp [hc]

theorem pinInv_pinModeState {st : GpioState} (h : GpioInv st)
    (g : Int) (m : String) : GpioInv (pinModeState st g m) := by
  unfold pinModeState
  refine gpioInv_setPin h ?_
  rcases h g with ⟨h1, h2, h3⟩
  refine ⟨h1, h2, ?_⟩
  by_cases hm : m = "INPUT_PULLUP" <;> simp [hm, h3]

/-- Every public operation preserves C10's invariant. -/
theorem applyOp_preserves {st : GpioState} (h : GpioInv st) (op : GpioOp) :
    GpioInv (applyOp st op) := by
  cases op with
  | pinModeOp p m =>
    unfold applyOp pinMode
    cases hr : resolveValid p with
    | error e => simpa [hr] using h
    | ok g =>
      by_cases hm : toUpperStr m ∈ PIN_MODE_VALUES
      · simpa [hr, hm] using pinInv_pinModeState h g (toUpperStr m)
      · simpa [hr, hm] using h
  | digitalWriteOp p v =>
    unfold applyOp digitalWrite
    cases hr : resolveValid p with
    | error e => simpa [hr] using h
    | ok g => simpa [hr] using pinInv_digitalWriteState h g v
  | analogWriteOp p d =>
    unfold applyOp analogWrite
    cases hr : resolveValid p with
    | error e => simpa [hr] using h
    | ok g => simpa [hr] using pinInv_analogWriteState h g d
  | setExternalValueOp p v =>
    unfold applyOp setExternalValue
    cases hr : validateGpioRaw p with
    | error e => simpa [hr] using h
    | ok g =>
      simp only [hr]
      refine gpioInv_setPin h ?_
      rcases h g with ⟨h1, h2, _⟩
      refine ⟨h1, h2, ?_⟩
      by_cases hv : v = 0 <;> simp [hv]
  | resetOp =>
    unfold applyOp resetGpio
    exact gpioInv_init

/-- C10: starting from `_initializePins`, any sequence of public pin
operations leaves every pin with an integral duty in [0,1023] and a 0/1
digital value: `analogWrite` rounds and clamps what it stores, and the
digital writes normalize truthy/falsy input to 1/0. -/
theorem gpio_state_invariant (ops : List GpioOp) :
    GpioInv (ops.foldl applyOp initPins) := by
  have step : ∀ (l : List GpioOp) (st : GpioState), GpioInv st →
      GpioInv (l.foldl applyOp st) := by
    intro l
    induction l with
    | nil => exact fun st h => h
    | cons a l ih =>
      intro st h
      exact ih _ (applyOp_preserves h a)
  exact step ops initPins gpioInv_init

/-- `_validateGpio`'s throw is always the invalid-GPIO error. -/
theorem validateGpioRaw_error (q : PinIn) (e : GpioError)
    (h : validateGpioRaw q = .error e) : isInvalidPinError e = true := by
  cases q with
  | num n =>
    unfold validateGpioRaw at h
    by_cases hm : n ∈ VALID_GPIOS
    · simp [hm] at h
    · simp [hm] at h
      rw [← h]
      rfl
  | str s =>
    simp [validateGpioRaw] at h
    rw [← h]
    rfl

/-- `resolvePin`'s throw is always the unknown-pin error. -/
theorem resolvePin_error (p : PinIn) (e : GpioError)
    (h : resolvePin p = .error e) : isInvalidPinError e = true := by
  cases p with
  | num n => simp [resolvePin] at h
  | str s =>
    unfold resolvePin at h
    by_cases hb : toUpperStr s = "LED_BUILTIN"
    · simp [hb] at h
    · simp only [hb, if_false] at h
      cases hf : (ESP8266_PIN_MAP.find? (fun q => q.1 = toUpperStr s)).map
          (fun q => q.2) with
      | some g => simp [hf] at h
      | none =>
        simp only [hf] at h
        cases hp : parseIntJS s with
        | some n => simp [hp] at h
        | none =>
          simp [hp] at h
          rw [← h]
          rfl

/-- Every failure of the shared resolve-and-validate prelude is an
invalid-pin error (unknown identifier or id outside the valid set). -/
theorem resolveValid_error_kind (p : PinIn) (e : GpioError)
    (h : resolveValid p = .error e) : isInvalidPinError e = true := by
  unfold resolveValid at h
  cases hr : resolvePin p with
  | error e2 =>
    rw [hr] at h
    simp at h
    exact h ▸ resolvePin_error p e2 hr
  | ok g =>
    rw [hr] at h
    exact validateGpioRaw_error (.num g) e h

/-- The result of `validateGpioRaw` on a successful resolution is the
member id itself. -/
theorem validateGpioRaw_ok (n g : Int)
    (h : validateGpioRaw (.num n) = .ok g) : g ∈ VALID_GPIOS ∧ g = n := by
  unfold validateGpioRaw at h
  by_cases hm : n ∈ VALID_GPIOS
  · simp [hm] at h
    exact ⟨h ▸ hm, h.symm⟩
  · simp [hm] at h

/-- C7 (amended): `pinMode`, `digitalWrite`, `digitalRead` and
`analogWrite` resolve the pin identifier and validate the resolved id
before acting — they throw exactly the prelude's invalid-pin error and
succeed (modulo `pinMode`'s separate mode check) whenever the id resolves
to a member of the valid set; `setExternalValue`, however, never resolves
symbolic identifiers: it validates its argument directly, so every string
argument — a valid alias included — throws an invalid-GPIO error. -/
theorem pin_ops_resolve_and_validate (st : GpioState) (p : PinIn) (v : Int)
    (d : Rat) (m : String) :
    (∀ e, resolveValid p = .error e →
      isInvalidPinError e = true ∧ digitalWrite st p v = .error e ∧
      digitalRead st p = .error e ∧ analogWrite st p d = .error e ∧
      pinMode st p m = .error e) ∧
    (∀ g, resolveValid p = .ok g →
      g ∈ VALID_GPIOS ∧ exceptOk (digitalWrite st p v) = true ∧
      exceptOk (digitalRead st p) = true ∧ exceptOk (analogWrite st p d) = true) ∧
    (∀ s w, setExternalValue st (.str s) w = .error (.invalidGpio (.str s))) := by
  refine ⟨?_, ?_, ?_⟩
  · intro e he
    refine ⟨resolveValid_error_kind p e he, ?_, ?_, ?_, ?_⟩ <;>
      simp [digitalWrite, digitalRead, analogWrite, pinMode, he]
  · intro g hg
    have hmem : g ∈ VALID_GPIOS := by
      unfold resolveValid at hg
      cases hr : resolvePin p with
      | error e => simp [hr] at hg
      | ok n =>
        rw [hr] at hg
        exact (validateGpioRaw_ok n g hg).1
    exact ⟨hmem, by simp [digitalWrite, hg, exceptOk],
      by simp [digitalRead, hg, exceptOk], by simp [analogWrite, hg, exceptOk]⟩
  · intro s w
    simp [setExternalValue, validateGpioRaw]

/-- C7's counterexample: the alias "D4" resolves to GPIO 2, a member of the
valid id set, and `digitalWrite` accepts it — yet `setExternalValue`
throws the invalid-pin error on it, so the claim that every public pin
operation resolves symbolic identifiers before acting is false. -/
theorem setExternalValue_rejects_alias :
    setExternalValue initPins (.str "D4") 1 = .error (.invalidGpio (.str "D4")) ∧
    resolveValid (.str "D4") = .ok 2 ∧ (2 : Int) ∈ VALID_GPIOS ∧
    exceptOk (digitalWrite initPins (.str "D4") 1) = true := by
  refine ⟨rfl, rfl, by decide, rfl⟩

/-- C2 (amended): when static validation passes and the translation/binding
step throws, `load` publishes the error on the console topic and returns
failure — but it does mutate the engine state: the state field becomes
ERROR (so `getState()` changes unless the engine was already errored). -/
theorem load_compile_failure (e : Engine) (code msg : String)
    (hv : (validateCode code).errors = []) :
    (load e code (.error msg)).1.success = false ∧
    EngEv.serialErrMsg msg ∈ (load e code (.error msg)).2.2 ∧
    (load e code (.error msg)).2.1.state = .error := by
  simp [load, hv]

theorem load_compile_failure_w :
    (load engineInit blinkOkCode (.error "unexpected token")).1.success = false ∧
    EngEv.serialErrMsg "unexpected token" ∈
      (load engineInit blinkOkCode (.error "unexpected token")).2.2 ∧
    (load engineInit blinkOkCode (.error "unexpected token")).2.1.state = .error :=
  load_compile_failure engineInit blinkOkCode "unexpected token" (by decide)

/-- C2's counterexample: from the IDLE initial state, a load whose compile
step fails leaves the engine in the ERROR state — `getState()` is not the
same before and after the failed load, contrary to the claim. -/
theorem load_compile_failure_mutates_state :
    engineInit.state = .idle ∧
    (load engineInit blinkOkCode (.error "unexpected token")).1.success = false ∧
    (load engineInit blinkOkCode (.error "unexpected token")).2.1.state = .error := by
  decide

/-- C5 (amended): loading source that has a `setup` entry point but no
`loop` (and trips no other validation rule) yields exactly the one
missing-loop error diagnostic and `success = false`, and no new
CompiledProgram is stored — but the load does **not** invalidate a
previously compiled program: the stored program and `start()`'s guard are
unchanged. -/
theorem load_missing_loop (e : Engine) (code : String)
    (cr : Except String Compiled) (hs : hasSetupFn code = true)
    (hl : hasLoopFn code = false) (hline : (lineDiags code).1 = []) :
    (validateCode code).errors = [⟨1, .missingLoop, .error⟩] ∧
    (load e code cr).1.success = false ∧
    (load e code cr).1.errors = [⟨1, .missingLoop, .error⟩] ∧
    (load e code cr).2.1.compiled = e.compiled ∧
    canStart (load e code cr).2.1 = canStart e := by
  have hv : (validateCode code).errors = [⟨1, .missingLoop, .error⟩] := by
    simp [validateCode, entryDiags, hs, hl, hline]
  refine ⟨hv, ?_, ?_, ?_, ?_⟩ <;> simp [load, hv, canStart]

theorem load_missing_loop_w :
    (validateCode noLoopCode).errors = [⟨1, .missingLoop, .error⟩] ∧
    (load engineInit noLoopCode (.ok ⟨"js"⟩)).1.success = false ∧
    (load engineInit noLoopCode (.ok ⟨"js"⟩)).1.errors =
      [⟨1, .missingLoop, .error⟩] ∧
    (load engineInit noLoopCode (.ok ⟨"js"⟩)).2.1.compiled = engineInit.compiled ∧
    canStart (load engineInit noLoopCode (.ok ⟨"js"⟩)).2.1 = canStart engineInit :=
  load_missing_loop engineInit noLoopCode (.ok ⟨"js"⟩) (by decide) (by decide)
    (by decide)

/-- C5's counterexample: an engine holding a previously compiled program,
after a failed load of loop-less source, still holds that program and
`start()`'s guard still passes — the claim that the new load invalidates
it (so `start()` cannot run it) is false. -/
theorem load_missing_loop_keeps_old_program :
    (load engineWithOld noLoopCode (.ok ⟨"new"⟩)).1.success = false ∧
    (load engineWithOld noLoopCode (.ok ⟨"new"⟩)).1.errors =
      [⟨1, .missingLoop, .error⟩] ∧
    (load engineWithOld noLoopCode (.ok ⟨"new"⟩)).2.1.compiled =
      some ⟨"old program"⟩ ∧
    canStart (load engineWithOld noLoopCode (.ok ⟨"new"⟩)).2.1 = true := by
  decide

/-- A handler not in the publish-time set is never invoked. -/
theorem dispatchLive_not_mem (effect : Nat → List Nat) (h : Nat) :
    ∀ (pending removed : List Nat), h ∉ pending →
      countHits h (dispatchLive effect removed pending) = 0 := by
  intro pending
  induction pending with
  | nil => intro removed _; rfl
  | cons a rest ih =>
    intro removed hmem
    simp only [List.mem_cons, not_or] at hmem
    unfold dispatchLive
    by_cases hr : a ∈ removed
    · simpa [hr] using ih removed hmem.2
    · simp only [hr, if_false, countHits]
      rw [if_neg (fun hh => hmem.1 hh.symm)]
      simpa using ih (removed ++ effect a) hmem.2

/-- A handler already unsubscribed when the pass starts is never invoked. -/
theorem dispatchLive_removed (effect : Nat → List Nat) (h : Nat) :
    ∀ (pending removed : List Nat), h ∈ removed →
      countHits h (dispatchLive effect removed pending) = 0 := by
  intro pending
  induction pending with
  | nil => intro removed _; rfl
  | cons a rest ih =>
    intro removed hrem
    unfold dispatchLive
    by_cases hr : a ∈ removed
    · simpa [hr] using ih removed hrem
    · have hne : a ≠ h := fun hh => hr (hh ▸ hrem)
      simp only [hr, if_false, countHits]
      rw [if_neg hne]
      simpa using ih (removed ++ effect a) (List.mem_append_left _ hrem)

/-- C8 (amended): `emit` iterates the live subscriber set, so
unsubscription during dispatch does alter the in-flight pass — a handler
unsubscribed before the iteration reaches it is skipped (invoked zero
times); a subscribed handler that nothing unsubscribes during the pass is
still invoked exactly once. -/
theorem emit_live_iteration_semantics (effect : Nat → List Nat)
    (pending removed : List Nat) (h : Nat) (hnd : pending.Nodup) :
    (h ∈ removed → countHits h (dispatchLive effect removed pending) = 0) ∧
    (h ∈ pending → h ∉ removed → (∀ g, h ∉ effect g) →
      countHits h (dispatchLive effect removed pending) = 1) := by
  constructor
  · exact fun hrem => dispatchLive_removed effect h pending removed hrem
  · induction pending generalizing removed with
    | nil => intro hmem; cases hmem
    | cons a rest ih =>
      intro hmem hrem heff
      rcases List.nodup_cons.mp hnd with ⟨hna, hndr⟩
      unfold dispatchLive
      rcases List.mem_cons.mp hmem with heq | hmemr
      · subst heq
        simp only [hrem, if_false, countHits, if_pos rfl]
        simp [dispatchLive_not_mem effect h rest (removed ++ effect h) hna]
      · have hne : a ≠ h := fun hh => hna (hh ▸ hmemr)
        by_cases hr : a ∈ removed
        · simpa [hr] using ih removed hndr hmemr hrem heff
        · simp only [hr, if_false, countHits]
          rw [if_neg hne]
          have hrem2 : h ∉ removed ++ effect a := by
            simp only [List.mem_append, not_or]
            exact ⟨hrem, heff a⟩
          simpa using ih (removed ++ effect a) hndr hmemr hrem2 heff

theorem emit_live_iteration_semantics_w :
    countHits 2 (dispatchLive (fun _ => []) [2] [1, 2]) = 0 ∧
    countHits 1 (dispatchLive (fun _ => []) [2] [1, 2]) = 1 :=
  ⟨(emit_live_iteration_semantics (fun _ => []) [1, 2] [2] 2 (by decide)).1
      (by decide),
    (emit_live_iteration_semantics (fun _ => []) [1, 2] [2] 1 (by decide)).2
      (by decide) (by decide) (fun g => List.not_mem_nil 1)⟩

/-- C8's counterexample: two handlers subscribed at publish time; the first
one's invocation unsubscribes the second, which is then skipped by the
in-flight pass — invoked zero times, not exactly once as the snapshot
claim requires. -/
theorem emit_unsubscribe_skips_handler :
    dispatchLive (fun n => if n = 1 then [2] else []) [] [1, 2] = [1] ∧
    countHits 2 (dispatchLive (fun n => if n = 1 then [2] else []) [] [1, 2]) = 0 := by
  decide

/-- At any stop index `j`, the chunked tick loop rejects exactly at tick
`j` when `j` falls inside the remaining ticks. -/
theorem tickLoop_stops_at (j : Nat) :
    ∀ (n i : Nat), i ≤ j → j < i + n →
      tickLoop (fun k => decide (k < j)) i n = .error j := by
  intro n
  induction n with
  | zero => intro i _ h2; omega
  | succ n ih =>
    intro i h1 h2
    by_cases hij : i < j
    · simpa [tickLoop, hij] using ih (i + 1) hij (by omega)
    · have : i = j := by omega
      simp [tickLoop, hij, this]

/-- C4: if `stop()` lands while `_delay(ms)` is pending (the running flag
turns false before tick `j` of the chunked wait), the delay rejects with
the cancellation signal exactly at that next quantum boundary; the awaited
rejection aborts the current `loop()` invocation without running the rest
of its body; `_runLoop`'s catch swallows `__STOP__` without rescheduling
or touching the state; and `stop()` itself has already put the engine in
STOPPED — not ERROR — with no loop timer pending. -/
theorem stop_during_delay_aborts (e : Engine) (ms j : Nat)
    (rest : Except Signal Unit) (hms : chunkSize < realDelay ms)
    (hj : j < delayTicks ms) :
    delayRun (fun i => decide (i < j)) ms = .error j ∧
    loopIterWithDelay (fun i => decide (i < j)) ms rest = .error .stopSignal ∧
    handleLoopOutcome (stopEngine e) (.error .stopSignal) = stopEngine e ∧
    (stopEngine e).state = .stopped ∧
    (stopEngine e).loopTimeoutPending = false ∧
    (stopEngine e).state ≠ .error := by
  have hd : delayRun (fun i => decide (i < j)) ms = .error j := by
    unfold delayRun
    rw [if_neg (Nat.not_le.mpr hms)]
    exact tickLoop_stops_at j (delayTicks ms) 0 (Nat.zero_le j) (by omega)
  refine ⟨hd, ?_, rfl, rfl, rfl, by simp [stopEngine]⟩
  unfold loopIterWithDelay
  rw [hd]

theorem stop_during_delay_aborts_w :
    delayRun (fun i => decide (i < 1)) 5000 = .error 1 ∧
    loopIterWithDelay (fun i => decide (i < 1)) 5000 (.ok ()) =
      .error .stopSignal ∧
    handleLoopOutcome (stopEngine engineRunningEx) (.error .stopSignal) =
      stopEngine engineRunningEx ∧
    (stopEngine engineRunningEx).state = .stopped ∧
    (stopEngine engineRunningEx).loopTimeoutPending = false ∧
    (stopEngine engineRunningEx).state ≠ .error :=
  stop_during_delay_aborts engineRunningEx 5000 1 (.ok ()) (by decide) (by decide)

/-- C3: the dialect-constant substitution is a blanket whole-text regex
replacement, so it does rewrite recognized constants inside string
literals and comments — evaluated here at two failing inputs (a string
literal holding HIGH, a comment holding LOW), contradicting the
requirement that such occurrences be left untouched. -/
theorem substitution_alters_literals_and_comments :
    substituteConstants "x = \"HIGH\";" = "x = \"1\";" ∧
    substituteConstants "delay(10); // LOW power" = "delay(10); // 0 power" := by
  constructor
  · decide
  · decide

end ESP8266